import Mathlib

/-!
Verification of the actor/channel core of the `demo-05` repository.

The embedding follows the two Rust sources:

* `system/src/lib.rs` — the `System` trait, `Addr<T>` / `MsgQueue<T>` halves of a
  `std::sync::mpsc` channel, `SystemUID`, `SystemError` and `system_init`.
* `src/entity.rs` — the example `EntitySystem`: directory traversal with
  extension-based dispatch, the main run loop answering `Kill`, and synchronous
  publish/subscribe.

A channel is modelled by its abstract state: the FIFO buffer of pending messages,
the number of live `Addr` clones (senders) and whether the `MsgQueue` (receiver)
still exists.  `std::sync::mpsc` semantics: `send` succeeds exactly while the
receiver is alive, `recv` yields a buffered message, blocks while some sender is
alive, and returns `None` once the buffer is drained and every sender is gone.
-/

namespace Demo05

/-- Type `SystemError` from `system/src/lib.rs`: the only variant is `CannotSend`. -/
inductive SystemError where
  | CannotSend
deriving DecidableEq, Repr

/-- Abstract state of one `std::sync::mpsc` channel, as created by `system_init`:
the FIFO `buffer`, the number of live `Addr` clones, and whether the `MsgQueue`
(the unique receiver) is still alive. -/
structure Channel (T : Type) where
  buffer : List T
  senders : Nat
  receiverAlive : Bool
deriving DecidableEq, Repr

/-- Function `system_init<T>()`: a fresh bound pair — empty buffer, one `Addr`, live `MsgQueue`. -/
def system_init (T : Type) : Channel T :=
  { buffer := [], senders := 1, receiverAlive := true }

namespace Addr

/-- Method `Addr::send_msg`: `self.sender.send(msg).map_err(|_| SystemError::CannotSend)`.
`mpsc::Sender::send` succeeds (enqueueing at the back) exactly while the receiver
is alive, and fails once it has been dropped. -/
def send_msg {T : Type} (ch : Channel T) (msg : T) : Except SystemError (Channel T) :=
  if ch.receiverAlive then
    Except.ok { ch with buffer := ch.buffer ++ [msg] }
  else
    Except.error SystemError.CannotSend

/-- Clause `impl Clone for Addr`: one more live sender on the same channel. -/
def clone {T : Type} (ch : Channel T) : Channel T :=
  { ch with senders := ch.senders + 1 }

/-- Dropping one `Addr` clone: one fewer live sender. -/
def drop {T : Type} (ch : Channel T) : Channel T :=
  { ch with senders := ch.senders - 1 }

end Addr

/-- Outcome of one `MsgQueue::recv` call on a channel state. -/
inductive RecvResult (T : Type) where
  /-- A message was available: `recv` returns `Some t`, leaving `rest`. -/
  | msg (t : T) (rest : Channel T)
  /-- Buffer empty but some `Addr` clone is alive: `recv` blocks the caller. -/
  | blocked
  /-- Buffer drained and every `Addr` clone dropped: `recv` returns `None`. -/
  | closed
deriving DecidableEq, Repr

namespace MsgQueue

/-- Method `MsgQueue::recv`: `self.receiver.recv().ok()`.  `mpsc::Receiver::recv` pops the
front of the FIFO when nonempty, blocks while a sender may still send, and errors
(mapped to `None` by `.ok()`) once the channel is empty and sender-free. -/
def recv {T : Type} (ch : Channel T) : RecvResult T :=
  match ch.buffer with
  | t :: rest => RecvResult.msg t { ch with buffer := rest }
  | [] => if ch.senders = 0 then RecvResult.closed else RecvResult.blocked

/-- Dropping the `MsgQueue`: the receive side ceases to exist. -/
def drop {T : Type} (ch : Channel T) : Channel T :=
  { ch with receiverAlive := false }

end MsgQueue

/-- Perform `n` sequential `send_msg` calls, stopping at the first failure. -/
def sendAll {T : Type} (ch : Channel T) : List T → Except SystemError (Channel T)
  | [] => Except.ok ch
  | msg :: rest =>
    match Addr.send_msg ch msg with
    | Except.ok ch' => sendAll ch' rest
    | Except.error e => Except.error e

/-- Perform `n` `recv` calls, collecting the received messages in order; stops early if
`recv` would block or report closure. -/
def recvAll {T : Type} : Nat → Channel T → List T × Channel T
  | 0, ch => ([], ch)
  | n + 1, ch =>
    match MsgQueue.recv ch with
    | RecvResult.msg t rest =>
      let p := recvAll n rest
      (t :: p.1, p.2)
    | _ => ([], ch)

lemma sendAll_alive {T : Type} (msgs : List T) :
    ∀ ch : Channel T, ch.receiverAlive = true →
      sendAll ch msgs = Except.ok { ch with buffer := ch.buffer ++ msgs } := by
  induction msgs with
  | nil => intro ch _; simp [sendAll]
  | cons m rest ih =>
    intro ch h
    simp only [sendAll, Addr.send_msg, h, if_true]
    rw [ih _ (by simp [h])]
    simp

lemma recvAll_buffer {T : Type} (msgs : List T) :
    ∀ ch : Channel T, ch.buffer = msgs →
      recvAll msgs.length ch = (msgs, { ch with buffer := [] }) := by
  induction msgs with
  | nil => intro ch h; simp [recvAll]; cases ch; simpa using h.symm
  | cons m rest ih =>
    intro ch h
    simp only [List.length_cons, recvAll, MsgQueue.recv, h]
    rw [ih { ch with buffer := rest } rfl]

/-- C2: For every fresh channel pair from `system_init` and every list of messages,
sending them all from the `Addr` succeeds, and as many `recv` calls on the
`MsgQueue` yield exactly those messages in the order they were sent. -/
theorem sends_then_recvs_fifo {T : Type} (msgs : List T) :
    ∃ ch : Channel T,
      sendAll (system_init T) msgs = Except.ok ch ∧
      (recvAll msgs.length ch).1 = msgs := by
  refine ⟨{ system_init T with buffer := msgs }, ?_, ?_⟩
  · have := sendAll_alive msgs (system_init T) rfl
    simpa [system_init] using this
  · rw [recvAll_buffer msgs _ rfl]

/-- C3: `send_msg` returns `Ok(())` and enqueues the message exactly while the
receive side (the `MsgQueue`) still exists, and returns `Err(CannotSend)` exactly
when it no longer does; `CannotSend` is the only possible error value of
`SystemError`. -/
theorem send_msg_semantics {T : Type} (ch : Channel T) (msg : T) :
    Addr.send_msg ch msg =
      (if ch.receiverAlive then
        Except.ok { ch with buffer := ch.buffer ++ [msg] }
      else
        Except.error SystemError.CannotSend) ∧
    ∀ e : SystemError, e = SystemError.CannotSend := by
  constructor
  · rfl
  · intro e; cases e; rfl

/-- C4: `recv` pops and returns the front message when one is available, blocks
(rather than returning) while the buffer is empty but a sender is alive, and once
every `Addr` clone has been dropped and the buffer is drained it returns the
"no message" value (`None`, modelled `closed`) instead of an error or blocking. -/
theorem recv_semantics {T : Type} (ch : Channel T) :
    (∀ (t : T) (rest : List T), ch.buffer = t :: rest →
      MsgQueue.recv ch = RecvResult.msg t { ch with buffer := rest }) ∧
    (ch.buffer = [] → ch.senders = 0 → MsgQueue.recv ch = RecvResult.closed) ∧
    (ch.buffer = [] → 0 < ch.senders → MsgQueue.recv ch = RecvResult.blocked) := by
  refine ⟨?_, ?_, ?_⟩
  · intro t rest h; simp [MsgQueue.recv, h]
  · intro hb hs; simp [MsgQueue.recv, hb, hs]
  · intro hb hs; simp [MsgQueue.recv, hb, Nat.pos_iff_ne_zero.mp hs]

/-- Witness for `recv_semantics`: on the concrete channel with buffer `[7]`, one
sender and a live receiver, `recv` returns the message; on the drained,
sender-free channel it reports closure. -/
theorem recv_semantics_witness :
    MsgQueue.recv ({ buffer := [7], senders := 1, receiverAlive := true } : Channel Nat) =
      RecvResult.msg 7 { buffer := [], senders := 1, receiverAlive := true } ∧
    MsgQueue.recv ({ buffer := [], senders := 0, receiverAlive := true } : Channel Nat) =
      RecvResult.closed :=
  ⟨(recv_semantics { buffer := [7], senders := 1, receiverAlive := true }).1 7 [] rfl,
   (recv_semantics { buffer := [], senders := 0, receiverAlive := true }).2.1 rfl rfl⟩

/-- Modelled from the spec: the module `resource` (file `system/src/resource.rs`,
declared by `pub mod resource;` in `system/src/lib.rs` and used through
`ResourceManager::new` / `ResourceManager::wrap` in `src/entity.rs`) is not among
the shown sources.  Following §4.3 of the spec: the manager owns a mapping from
`Handle` to `(value, name)`; `wrap(value, name)` stores the value under a freshly
minted unique handle (minted monotonically, never reused) together with the
diagnostic name, never fails, and returns that handle; lookup by handle returns
the stored value when the handle exists. -/
structure ResourceManager (V : Type) where
  nextHandle : Nat
  store : List (Nat × V × String)
deriving Repr

namespace ResourceManager

/-- Modelled from the spec: `ResourceManager::new()` — an empty manager. -/
def new (V : Type) : ResourceManager V := { nextHandle := 0, store := [] }

/-- Modelled from the spec: `wrap(value, name) -> Handle` — mint the next handle
monotonically, store the entry, return the handle and the updated manager.  Total:
insertion never fails. -/
def wrap {V : Type} (rm : ResourceManager V) (value : V) (name : String) :
    Nat × ResourceManager V :=
  (rm.nextHandle,
   { nextHandle := rm.nextHandle + 1, store := (rm.nextHandle, value, name) :: rm.store })

/-- Modelled from the spec: lookup-by-handle, returning the stored value or `none`. -/
def lookup {V : Type} (rm : ResourceManager V) (h : Nat) : Option V :=
  (rm.store.find? (fun e => e.1 = h)).map (fun e => e.2.1)

end ResourceManager

/-- Call `wrap` on each `(value, name)` pair in order, collecting the returned handles. -/
def wrapAll {V : Type} (rm : ResourceManager V) :
    List (V × String) → List Nat × ResourceManager V
  | [] => ([], rm)
  | item :: rest =>
    let p := rm.wrap item.1 item.2
    let q := wrapAll p.2 rest
    (p.1 :: q.1, q.2)

lemma wrapAll_handles {V : Type} (items : List (V × String)) :
    ∀ rm : ResourceManager V,
      (wrapAll rm items).1 = List.range' rm.nextHandle items.length := by
  induction items with
  | nil => intro rm; simp [wrapAll]
  | cons item rest ih =>
    intro rm
    simp [wrapAll, ResourceManager.wrap, ih, List.range'_succ]

lemma wrapAll_nextHandle {V : Type} (items : List (V × String)) :
    ∀ rm : ResourceManager V,
      (wrapAll rm items).2.nextHandle = rm.nextHandle + items.length := by
  induction items with
  | nil => intro rm; simp [wrapAll]
  | cons item rest ih =>
    intro rm
    simp [wrapAll, ResourceManager.wrap, ih]
    omega

lemma wrapAll_lookup_lt {V : Type} (items : List (V × String)) :
    ∀ (rm : ResourceManager V) (h : Nat), h < rm.nextHandle →
      (wrapAll rm items).2.lookup h = rm.lookup h := by
  induction items with
  | nil => intro rm h _; simp [wrapAll]
  | cons item rest ih =>
    intro rm h hlt
    simp only [wrapAll, ResourceManager.wrap]
    rw [ih _ h (by simp; omega)]
    simp [ResourceManager.lookup, List.find?, Nat.ne_of_gt hlt]

lemma wrapAll_lookup {V : Type} (items : List (V × String)) :
    ∀ (rm : ResourceManager V) (i : Nat), i < items.length →
      ((wrapAll rm items).2.lookup (rm.nextHandle + i)).map id =
        (items.get? i).map Prod.fst := by
  induction items with
  | nil => intro rm i hi; simp at hi
  | cons item rest ih =>
    intro rm i hi
    match i with
    | 0 =>
      simp only [wrapAll, ResourceManager.wrap, Nat.add_zero]
      rw [wrapAll_lookup_lt rest _ rm.nextHandle (by simp)]
      simp [ResourceManager.lookup, List.find?]
    | Nat.succ j =>
      have hj : j < rest.length := by simpa [Nat.succ_lt_succ_iff] using hi
      simp only [wrapAll, ResourceManager.wrap, List.get?_cons_succ]
      have heq : rm.nextHandle + (j + 1) = rm.nextHandle + 1 + j := by omega
      rw [heq]
      exact ih { nextHandle := rm.nextHandle + 1,
                 store := (rm.nextHandle, item.1, item.2) :: rm.store } j hj

/-- C1: For a fresh `ResourceManager`, wrapping `k` values returns `k` pairwise
distinct handles (no handle equals any previously returned one), wrapping is total
(never fails, witnessed by `wrapAll` being a function), and looking up the `i`-th
returned handle yields exactly the `i`-th inserted value. -/
theorem wrap_unique_handles_lookup {V : Type} (items : List (V × String)) :
    ((wrapAll (ResourceManager.new V) items).1).Nodup ∧
    (wrapAll (ResourceManager.new V) items).1.length = items.length ∧
    ∀ i : Nat,
      ((wrapAll (ResourceManager.new V) items).1.get? i).bind
          (wrapAll (ResourceManager.new V) items).2.lookup =
        (items.get? i).map Prod.fst := by
  have hh := wrapAll_handles items (ResourceManager.new V)
  refine ⟨?_, ?_, ?_⟩
  · rw [hh]; exact List.nodup_range' _ _
  · rw [hh]; simp
  · intro i
    by_cases hi : i < items.length
    · have hget : (wrapAll (ResourceManager.new V) items).1.get? i = some i := by
        rw [hh]
        simp [List.get?_eq_getElem?, List.getElem?_range', hi, ResourceManager.new]
      rw [hget]
      have := wrapAll_lookup items (ResourceManager.new V) i hi
      simpa [ResourceManager.new, Option.map_id] using this
    · have h1 : (wrapAll (ResourceManager.new V) items).1.get? i = none := by
        rw [hh]
        simp [List.get?_eq_getElem?, List.getElem?_eq_none_iff, ResourceManager.new]
        omega
      have h2 : items.get? i = none := by
        simp [List.get?_eq_getElem?, List.getElem?_eq_none_iff]
        omega
      rw [h1, h2]
      rfl

namespace System

/-- Method `System::system_addr` hands out a clone of the system's own `Addr`
(`self.addr.clone()` in `EntitySystem`'s implementation). -/
def system_addr {M : Type} (ch : Channel M) : Channel M :=
  Addr.clone ch

/-- The trait's default `send_msg_self`:
`self.system_addr().send_msg(msg)` — send through the address returned by
`system_addr`; the temporary `Addr` clone is dropped when the call returns. -/
def send_msg_self {M : Type} (ch : Channel M) (msg : M) : Except SystemError (Channel M) :=
  match Addr.send_msg (system_addr ch) msg with
  | Except.ok ch' => Except.ok (Addr.drop ch')
  | Except.error e => Except.error e

end System

/-- Written from the spec's words for C9: `send_msg_self(msg)` is `Ok(())` when
the system's own queue is still alive and `Err(SystemError::CannotSend)`
otherwise, the message being appended to the system's own inbox on success. -/
def sendMsgSelfSpec {M : Type} (ch : Channel M) (msg : M) : Except SystemError (Channel M) :=
  if ch.receiverAlive then
    Except.ok { ch with buffer := ch.buffer ++ [msg] }
  else
    Except.error SystemError.CannotSend

/-- C9: the trait's default `send_msg_self` returns exactly the result of sending
through `system_addr()`: it agrees with `Addr.send_msg` on the system's own
channel — `Ok` appending the message when the queue is alive, `CannotSend`
otherwise. -/
theorem send_msg_self_refines {M : Type} (ch : Channel M) (msg : M) :
    System.send_msg_self ch msg = Addr.send_msg ch msg ∧
    System.send_msg_self ch msg = sendMsgSelfSpec ch msg := by
  have h : System.send_msg_self ch msg = Addr.send_msg ch msg := by
    cases ch with
    | mk buffer senders receiverAlive =>
      cases receiverAlive <;>
        simp [System.send_msg_self, System.system_addr, Addr.send_msg, Addr.clone, Addr.drop]
  exact ⟨h, h⟩

/-- Type `EntityMsg` from `src/entity.rs`: the only variant is `Kill`. -/
inductive EntityMsg where
  | Kill
deriving DecidableEq, Repr

/-- Message `RuntimeMsg::SystemExit(uid)` — the exit notification an `EntitySystem` sends
to its parent runtime.  (Only the variant used in `src/entity.rs` is modelled;
the `runtime` module is not among the shown sources.) -/
inductive RuntimeMsg where
  | SystemExit (uid : Nat)
deriving DecidableEq, Repr

/-- The main loop of `EntitySystem::start`, after the initial traversal: it is
driven by the sequence of messages its queue will still yield before closing
(`queued`); each `recv` outcome is matched by
`Some(EntityMsg::Kill) | None => { runtime_addr.send_msg(SystemExit(uid)).unwrap(); break }`
— the only arm of the `match`.  `Except.error ()` models the `unwrap` panic. -/
def EntitySystem.runLoop (queued : List EntityMsg) (runtime : Channel RuntimeMsg)
    (uid : Nat) : Except Unit (Channel RuntimeMsg) :=
  match queued with
  | [] =>
    match Addr.send_msg runtime (RuntimeMsg.SystemExit uid) with
    | Except.ok ch => Except.ok ch
    | Except.error _ => Except.error ()
  | EntityMsg.Kill :: _ =>
    match Addr.send_msg runtime (RuntimeMsg.SystemExit uid) with
    | Except.ok ch => Except.ok ch
    | Except.error _ => Except.error ()

/-- C5: whatever the run loop receives — `Kill`, or `None` because the channel
closed — it sends exactly one `RuntimeMsg::SystemExit` carrying its own UID to
the parent runtime address and exits the loop, processing no further message
(the tail of the queue is irrelevant); and `Kill`/closure are the only possible
`recv` outcomes, since `Kill` is the only `EntityMsg` variant. -/
theorem run_loop_exit_notification (queued : List EntityMsg)
    (runtime : Channel RuntimeMsg) (uid : Nat)
    (halive : runtime.receiverAlive = true) :
    EntitySystem.runLoop queued runtime uid =
      Except.ok { runtime with buffer := runtime.buffer ++ [RuntimeMsg.SystemExit uid] } ∧
    (∀ rest : List EntityMsg,
      EntitySystem.runLoop (EntityMsg.Kill :: rest) runtime uid =
        EntitySystem.runLoop [] runtime uid) ∧
    ∀ m : EntityMsg, m = EntityMsg.Kill := by
  refine ⟨?_, ?_, ?_⟩
  · match queued with
    | [] => simp [EntitySystem.runLoop, Addr.send_msg, halive]
    | EntityMsg.Kill :: _ => simp [EntitySystem.runLoop, Addr.send_msg, halive]
  · intro rest; rfl
  · intro m; cases m; rfl

/-- Witness for `run_loop_exit_notification`: a concrete run loop receiving
`Kill` with a live parent runtime channel enqueues exactly one
`SystemExit 42` notification. -/
theorem run_loop_exit_notification_witness :
    EntitySystem.runLoop [EntityMsg.Kill]
        { buffer := [], senders := 1, receiverAlive := true } 42 =
      Except.ok { buffer := [RuntimeMsg.SystemExit 42], senders := 1, receiverAlive := true } :=
  (run_loop_exit_notification [EntityMsg.Kill]
    { buffer := [], senders := 1, receiverAlive := true } 42 rfl).1

/-- C7: if the parent runtime address can no longer receive (the exit
notification send returns `CannotSend`), the `unwrap` in the loop panics: the
terminating system aborts (`Except.error ()`), it does not retry and does not
continue. -/
theorem exit_notification_failure_fatal (queued : List EntityMsg)
    (runtime : Channel RuntimeMsg) (uid : Nat)
    (hdead : runtime.receiverAlive = false) :
    EntitySystem.runLoop queued runtime uid = Except.error () := by
  match queued with
  | [] => simp [EntitySystem.runLoop, Addr.send_msg, hdead]
  | EntityMsg.Kill :: _ => simp [EntitySystem.runLoop, Addr.send_msg, hdead]

/-- Witness for `exit_notification_failure_fatal`: with the parent runtime's
queue gone, a concrete run loop receiving `Kill` aborts. -/
theorem exit_notification_failure_fatal_witness :
    EntitySystem.runLoop [EntityMsg.Kill]
        { buffer := [], senders := 1, receiverAlive := false } 42 = Except.error () :=
  exit_notification_failure_fatal [EntityMsg.Kill]
    { buffer := [], senders := 1, receiverAlive := false } 42 rfl

/-- The subscriber list of an `EntitySystem`
(`subscribers: Vec<Box<dyn Subscriber<EntityEvent>>>`); each boxed subscriber is
identified by an opaque token, here a `Nat`. -/
structure SubscriberList where
  subscribers : List Nat
deriving DecidableEq, Repr

namespace EntitySystem

/-- Method `EntitySystem::subscribe`: `self.subscribers.push(Box::new(subscriber))` —
append the new subscriber at the end. -/
def subscribe (s : SubscriberList) (sub : Nat) : SubscriberList :=
  { subscribers := s.subscribers ++ [sub] }

/-- Method `EntitySystem::publish`:
`for sub in &self.subscribers { sub.recv_msg(event.clone()); }` — the delivery
trace, in iteration order: one `recv_msg(event)` call per subscriber, performed
synchronously before `publish` returns. -/
def publish {E : Type} (s : SubscriberList) (event : E) : List (Nat × E) :=
  s.subscribers.map (fun sub => (sub, event))

end EntitySystem

/-- C6: `publish(e)` delivers `e` to every subscriber currently in the list
exactly once per list occurrence, in subscription order (the `i`-th delivery goes
to the `i`-th subscriber), synchronously before returning; a subscriber appended
afterwards by `subscribe` is not among those deliveries — it only receives
subsequent publishes, appended at the end. -/
theorem publish_delivers_in_order {E : Type} [DecidableEq E]
    (s : SubscriberList) (e : E) (newSub : Nat) :
    (∀ sub : Nat,
      (EntitySystem.publish s e).count (sub, e) = s.subscribers.count sub) ∧
    (∀ i : Nat,
      (EntitySystem.publish s e).get? i =
        (s.subscribers.get? i).map (fun sub => (sub, e))) ∧
    (newSub ∉ s.subscribers → (newSub, e) ∉ EntitySystem.publish s e) ∧
    EntitySystem.publish (EntitySystem.subscribe s newSub) e =
      EntitySystem.publish s e ++ [(newSub, e)] := by
  refine ⟨?_, ?_, ?_, ?_⟩
  · intro sub
    simp only [EntitySystem.publish]
    induction s.subscribers with
    | nil => rfl
    | cons a rest ih =>
      by_cases hae : a = sub
      · simp [hae, List.count_cons, ih]
      · simp only [List.map_cons, List.count_cons, ih]
        simp [hae]
  · intro i
    simp [EntitySystem.publish, List.get?_eq_getElem?]
  · intro hnot hmem
    exact hnot (by simpa [EntitySystem.publish] using hmem)
  · simp [EntitySystem.publish, EntitySystem.subscribe]

/-- Witness for `publish_delivers_in_order`: with subscribers `[5, 9]` and event
`3`, subscriber `7` subscribed after the publish receives nothing from it. -/
theorem publish_delivers_in_order_witness :
    (7, 3) ∉ EntitySystem.publish { subscribers := [5, 9] } (3 : Nat) :=
  (publish_delivers_in_order { subscribers := [5, 9] } (3 : Nat) 7).2.2.1 (by decide)

/-- Modelled from the spec: the `mesh` module (`Mesh::load_from_path`, declared by
`pub mod mesh;` in `src/entity.rs`) is not among the shown sources.  A
successfully loaded mesh is opaque to `entity.rs`, which only stores it, so it is
a unit-like token; whether loading a given file succeeds or fails ("well-formed"
vs "malformed" in §8 item 6) is part of the filesystem data, carried by the
`load` field of `Entry.fileE`. -/
inductive Mesh where
  | mk
deriving DecidableEq, Repr

/-- Type `Entity` from `src/entity.rs`: currently a single variant wrapping a `Mesh`. -/
inductive Entity where
  | Mesh (m : Demo05.Mesh)
deriving DecidableEq, Repr

/-- The log lines `traverse_directory` / `extension_based_dispatch` / `load_obj`
emit, abstracted to the event and the path (colouring and formatting dropped). -/
inductive LogEvent where
  /-- Line `log::info!("found resource file")` -/
  | found (name : String)
  /-- Line `log::warn!("resource doesn’t have a path extension; ignoring")` -/
  | noExtension (name : String)
  /-- Line `log::warn!("unknown extension ... for path ...")` -/
  | unknownExtension (ext : String) (name : String)
  /-- Line `log::error!("cannot load OBJ ...")` -/
  | loadError (name : String) (err : String)
  /-- Line `log::info!` reporting `loaded` with the path -/
  | loaded (name : String)
deriving DecidableEq, Repr

/-- The state `traverse_directory` mutates: the system's `ResourceManager` and
the emitted log trace. -/
structure TravState where
  resources : ResourceManager Entity
  logs : List LogEvent
deriving Repr

/-- One entry yielded while walking the root directory, as `read_dir` exposes it
to `traverse_directory`:
* `errEntry` — a `dir_entry` that is an `Err` (`dir_entry.unwrap()` panics);
* `fileE` — a regular file with its name, its `path.extension()` and the outcome
  `Mesh::load_from_path` would produce on it;
* `dirE` — a subdirectory; `none` means `read_dir` on it fails
  (`read_dir(path).unwrap()` panics). -/
inductive Entry where
  | errEntry
  | fileE (name : String) (ext : Option String) (load : Except String Mesh)
  | dirE (entries : Option (List Entry))
deriving Repr

namespace EntitySystem

/-- Method `EntitySystem::load_obj`: on `Ok(mesh)` wrap `Entity::Mesh(mesh)` under the
path name in the resource manager and log `loaded`; on `Err(err)` log the error
and continue. -/
def load_obj (st : TravState) (pathName : String) (load : Except String Mesh) :
    TravState :=
  match load with
  | Except.ok mesh =>
    let p := st.resources.wrap (Entity.Mesh mesh) pathName
    { resources := p.2, logs := st.logs ++ [LogEvent.loaded pathName] }
  | Except.error err =>
    { st with logs := st.logs ++ [LogEvent.loadError pathName err] }

/-- Method `EntitySystem::extension_based_dispatch`: `"obj"` goes to `load_obj`, any
other extension is logged as unknown and skipped. -/
def extension_based_dispatch (st : TravState) (ext : String) (pathName : String)
    (load : Except String Mesh) : TravState :=
  if ext = "obj" then
    load_obj st pathName load
  else
    { st with logs := st.logs ++ [LogEvent.unknownExtension ext pathName] }

/-- The body of `EntitySystem::traverse_directory`'s `for dir_entry in
read_dir(path).unwrap()` loop over a directory's entries: a failing `dir_entry`
or a failing `read_dir` on a subdirectory panics (`Except.error ()`); a
subdirectory is traversed recursively; a file is logged as found and dispatched
on its extension, files without one being logged and ignored. -/
def traverseEntries : List Entry → TravState → Except Unit TravState
  | [], st => Except.ok st
  | Entry.errEntry :: _, _ => Except.error ()
  | Entry.fileE name ext load :: rest, st =>
    let st1 : TravState := { st with logs := st.logs ++ [LogEvent.found name] }
    let st2 : TravState :=
      match ext with
      | some e => extension_based_dispatch st1 e name load
      | none => { st1 with logs := st1.logs ++ [LogEvent.noExtension name] }
    traverseEntries rest st2
  | Entry.dirE none :: _, _ => Except.error ()
  | Entry.dirE (some sub) :: rest, st =>
    match traverseEntries sub st with
    | Except.ok st' => traverseEntries rest st'
    | Except.error e => Except.error e

/-- Method `EntitySystem::traverse_directory` applied to the root directory's entries,
starting from a fresh `ResourceManager` and an empty log, as `EntitySystem::start`
does before entering its main loop. -/
def traverse_directory (root : List Entry) : Except Unit TravState :=
  traverseEntries root { resources := ResourceManager.new Entity, logs := [] }

end EntitySystem

/-- The directory of spec §8 item 6: a well-formed `a.obj`, a malformed `b.obj`
and a `c.txt`. -/
def exampleDir : List Entry :=
  [Entry.fileE "a.obj" (some "obj") (Except.ok Mesh.mk),
   Entry.fileE "b.obj" (some "obj") (Except.error "malformed"),
   Entry.fileE "c.txt" (some "txt") (Except.ok Mesh.mk)]

/-- C8: during startup traversal a file with an unregistered extension is logged
and skipped (state otherwise untouched), a file whose loader fails is logged and
skipped, a successfully loaded file causes exactly one `wrap` call storing the
loaded value; in each case the traversal continues past the file; and on the
concrete directory `{a.obj well-formed, b.obj malformed, c.txt}` traversal
completes without aborting, with exactly one wrapped resource (`a.obj`), a logged
unknown-extension skip for `c.txt` and a logged load failure for `b.obj`. -/
theorem per_file_errors_skipped_example :
    (∀ (st : TravState) (ext name : String) (load : Except String Mesh),
      ext ≠ "obj" →
        EntitySystem.extension_based_dispatch st ext name load =
          { st with logs := st.logs ++ [LogEvent.unknownExtension ext name] }) ∧
    (∀ (st : TravState) (name err : String),
      EntitySystem.load_obj st name (Except.error err) =
        { st with logs := st.logs ++ [LogEvent.loadError name err] }) ∧
    (∀ (st : TravState) (name : String) (m : Mesh),
      EntitySystem.load_obj st name (Except.ok m) =
        { resources := (st.resources.wrap (Entity.Mesh m) name).2,
          logs := st.logs ++ [LogEvent.loaded name] }) ∧
    (∀ (name e : String) (load : Except String Mesh) (rest : List Entry)
        (st : TravState),
      EntitySystem.traverseEntries (Entry.fileE name (some e) load :: rest) st =
        EntitySystem.traverseEntries rest
          (EntitySystem.extension_based_dispatch
            { st with logs := st.logs ++ [LogEvent.found name] } e name load)) ∧
    EntitySystem.traverse_directory exampleDir =
      Except.ok
        { resources := { nextHandle := 1, store := [(0, Entity.Mesh Mesh.mk, "a.obj")] },
          logs := [LogEvent.found "a.obj", LogEvent.loaded "a.obj",
                   LogEvent.found "b.obj", LogEvent.loadError "b.obj" "malformed",
                   LogEvent.found "c.txt", LogEvent.unknownExtension "txt" "c.txt"] } := by
  refine ⟨?_, ?_, ?_, ?_, ?_⟩
  · intro st ext name load h
    simp [EntitySystem.extension_based_dispatch, h]
  · intro st name err
    rfl
  · intro st name m
    rfl
  · intro name e load rest st
    simp [EntitySystem.traverseEntries]
  · simp [EntitySystem.traverse_directory, EntitySystem.traverseEntries, exampleDir,
          EntitySystem.extension_based_dispatch, EntitySystem.load_obj,
          ResourceManager.wrap, ResourceManager.new]

/-- Witness for `per_file_errors_skipped_example`: dispatching a `.txt` file on a
concrete state logs the unknown extension and changes nothing else. -/
theorem per_file_errors_skipped_example_witness :
    EntitySystem.extension_based_dispatch
        { resources := ResourceManager.new Entity, logs := [] } "txt" "c.txt"
        (Except.ok Mesh.mk) =
      { resources := ResourceManager.new Entity,
        logs := [LogEvent.unknownExtension "txt" "c.txt"] } :=
  per_file_errors_skipped_example.1
    { resources := ResourceManager.new Entity, logs := [] } "txt" "c.txt"
    (Except.ok Mesh.mk) (by decide)

/-- C10: a directory on which `read_dir` fails, or a failing directory entry,
makes `traverse_directory` panic (`unwrap` on the error), aborting startup —
unlike a per-file load failure, which is logged and the traversal continues. -/
theorem fs_enumeration_errors_panic :
    (∀ (rest : List Entry) (st : TravState),
      EntitySystem.traverseEntries (Entry.dirE none :: rest) st = Except.error ()) ∧
    (∀ (rest : List Entry) (st : TravState),
      EntitySystem.traverseEntries (Entry.errEntry :: rest) st = Except.error ()) ∧
    (∀ (rest : List Entry) (st : TravState) (name err : String),
      EntitySystem.traverseEntries
          (Entry.fileE name (some "obj") (Except.error err) :: rest) st =
        EntitySystem.traverseEntries rest
          { st with logs := st.logs ++ [LogEvent.found name, LogEvent.loadError name err] }) := by
  refine ⟨?_, ?_, ?_⟩
  · intro rest st
    simp [EntitySystem.traverseEntries]
  · intro rest st
    simp [EntitySystem.traverseEntries]
  · intro rest st name err
    simp [EntitySystem.traverseEntries, EntitySystem.extension_based_dispatch,
          EntitySystem.load_obj]

end Demo05
